import Mathlib

/-!
# STTFS — verification of the language pipeline

A shallow embedding of the STTFS repository's core pipeline: the
recursive-descent parser (`src/core/parser.py`), the tree-walking
filesystem generator (`src/core/generator.py`, mirrored by
`src/core/generator/generator.py`), the content-resolution chain, and the
template substitution passes (`src/core/generator/templates.py`).

Modelling conventions:

* Python `dict`s are association lists (`PyDict α`) in insertion order,
  with unique keys maintained by `envSet` (update-in-place) and
  `envErase`; Python dict iteration order is list order.
* Unbounded `while` loops and recursion are given a fuel parameter; all
  recursions are structural on the fuel so that concrete runs reduce
  inside the kernel. Fuel exhaustion is `none` / a dedicated constructor,
  distinct from the program's own error exits.
* Filesystem effects are logged in a `GenState` (created directories,
  file contents keyed by path, consumed stdin, accumulated stdout);
  `os.path.exists` is membership in that log. Best-effort attribute
  application (chmod/hidden/executable), which the code swallows, is not
  modelled. Text encoding of file bodies is modelled as the identity.
* `datetime.now()` strings are parameters (`now`, `nowIso`) of the
  generator configuration.
* Python `re` patterns used for file-content fallback are modelled by a
  matcher for the fragment actually exercised (a leading `^`, literal
  characters, `.`, postfix `*`), anchored at the start like `re.match`.
-/

/-! ## String utilities -/

/-- The character `{` (written by code so that string literals stay free of
raw braces). -/
def lbraceChar : Char := Char.ofNat 123

/-- The character `}`. -/
def rbraceChar : Char := Char.ofNat 125

/-- Whitespace test for the template renderer's regexes (`\s`), restricted
to the ASCII whitespace the templates use. -/
def isWsChar (c : Char) : Bool :=
  c = ' ' || c = '\t' || c = '\n' || c = '\r'

/-- Split a character list at the first occurrence of `pat`, returning the
part before it and the part after it (the occurrence itself removed). -/
def breakOn (pat : List Char) : List Char → Option (List Char × List Char)
  | [] => if pat = [] then some ([], []) else none
  | c :: rest =>
    if pat.isPrefixOf (c :: rest) then some ([], (c :: rest).drop pat.length)
    else (breakOn pat rest).map (fun p => (c :: p.1, p.2))

/-- Replace every (leftmost, non-overlapping) occurrence of `pat` by `rep`,
as Python `re.sub` with a literal pattern does. The fuel is the length of
the scanned list; each step consumes at least one character, so
`replaceAllFuel s.length pat rep s` is the total function. -/
def replaceAllFuel : Nat → List Char → List Char → List Char → List Char
  | 0, _, _, s => s
  | fuel + 1, pat, rep, s =>
    match s with
    | [] => []
    | c :: rest =>
      if pat.isPrefixOf s then rep ++ replaceAllFuel fuel pat rep (s.drop pat.length)
      else c :: replaceAllFuel fuel pat rep rest

/-- String-level wrapper of `replaceAllFuel` with adequate fuel. -/
def replaceAllStr (pat rep s : String) : String :=
  ⟨replaceAllFuel s.data.length pat.data rep.data s.data⟩

/-- Does `pat` occur as a contiguous sublist of the argument? -/
def hasSub (pat : List Char) : List Char → Bool
  | [] => pat.isEmpty
  | c :: rest => pat.isPrefixOf (c :: rest) || hasSub pat rest

/-- Python `str.strip()` on ASCII whitespace. -/
def pyStrip (s : List Char) : String :=
  ⟨((s.dropWhile isWsChar).reverse.dropWhile isWsChar).reverse⟩

/-! ## Association lists (Python dicts in insertion order) -/

/-- A Python `dict` with `String` keys: an association list in insertion
order with unique keys. -/
abbrev PyDict (α : Type) := List (String × α)

/-- `d.get(k)`: the value at the first (with unique keys: only) binding of
`k`, if any. -/
def envGet? {α : Type} : PyDict α → String → Option α
  | [], _ => none
  | (k, v) :: rest, n => if k = n then some v else envGet? rest n

/-- `d[k] = v`: update in place if `k` is bound (keeping its position),
else append — exactly Python dict assignment's effect on insertion
order. -/
def envSet {α : Type} : PyDict α → String → α → PyDict α
  | [], n, v => [(n, v)]
  | (k, w) :: rest, n, v =>
    if k = n then (n, v) :: rest else (k, w) :: envSet rest n v

/-- `del d[k]`: remove the binding of `k` (callers model Python's
`KeyError` when `k` is absent). -/
def envErase {α : Type} : PyDict α → String → PyDict α
  | [], _ => []
  | (k, w) :: rest, n => if k = n then rest else (k, w) :: envErase rest n

/-- The dict invariant: keys are unique. -/
def EnvNodup {α : Type} (ρ : PyDict α) : Prop := (ρ.map Prod.fst).Nodup

instance {α : Type} (ρ : PyDict α) : Decidable (EnvNodup ρ) :=
  inferInstanceAs (Decidable (List.Nodup _))

theorem envGet?_eq_none_of_not_mem {α : Type} {ρ : PyDict α} {n : String}
    (h : n ∉ ρ.map Prod.fst) : envGet? ρ n = none := by
  induction ρ with
  | nil => rfl
  | cons kv rest ih =>
    simp only [List.map_cons, List.mem_cons] at h
    push_neg at h
    simp only [envGet?]
    rw [if_neg (fun e => h.1 e.symm)]
    exact ih h.2

theorem envGet?_envSet {α : Type} (ρ : PyDict α) (n : String) (v : α) :
    envGet? (envSet ρ n v) n = some v := by
  induction ρ with
  | nil => simp [envSet, envGet?]
  | cons kv rest ih =>
    obtain ⟨k, w⟩ := kv
    by_cases h : k = n
    · simp [envSet, h, envGet?]
    · simp [envSet, h, envGet?, ih]

theorem envSet_mem_keys {α : Type} {ρ : PyDict α} {n a : String} {v : α}
    (h : a ∈ (envSet ρ n v).map Prod.fst) : a = n ∨ a ∈ ρ.map Prod.fst := by
  induction ρ with
  | nil => simpa [envSet] using h
  | cons kv rest ih =>
    obtain ⟨k, w⟩ := kv
    by_cases hk : k = n
    · simp only [envSet, if_pos hk, List.map_cons, List.mem_cons] at h
      rcases h with h | h
      · exact .inl h
      · exact .inr (by simp [h])
    · simp only [envSet, if_neg hk, List.map_cons, List.mem_cons] at h
      rcases h with h | h
      · exact .inr (by simp [h])
      · rcases ih h with h | h
        · exact .inl h
        · exact .inr (by simp [h])

theorem envErase_mem_keys {α : Type} {ρ : PyDict α} {n a : String}
    (h : a ∈ (envErase ρ n).map Prod.fst) : a ∈ ρ.map Prod.fst := by
  induction ρ with
  | nil => simp [envErase] at h
  | cons kv rest ih =>
    obtain ⟨k, w⟩ := kv
    by_cases hk : k = n
    · simp only [envErase, if_pos hk] at h
      simp [h]
    · simp only [envErase, if_neg hk, List.map_cons, List.mem_cons] at h
      rcases h with h | h
      · simp [h]
      · simp only [List.map_cons, List.mem_cons]
        exact .inr (ih h)

theorem envSet_nodup {α : Type} {ρ : PyDict α} (n : String) (v : α)
    (h : EnvNodup ρ) : EnvNodup (envSet ρ n v) := by
  induction ρ with
  | nil => simp [EnvNodup, envSet]
  | cons kv rest ih =>
    obtain ⟨k, w⟩ := kv
    simp only [EnvNodup, List.map_cons, List.nodup_cons] at h
    by_cases hk : k = n
    · subst hk
      simpa [EnvNodup, envSet] using h
    · have h2 := ih h.2
      simp only [EnvNodup, envSet, if_neg hk, List.map_cons, List.nodup_cons]
      refine ⟨fun hmem => ?_, h2⟩
      rcases envSet_mem_keys hmem with e | e
      · exact hk e
      · exact h.1 e

theorem envErase_nodup {α : Type} {ρ : PyDict α} (n : String)
    (h : EnvNodup ρ) : EnvNodup (envErase ρ n) := by
  induction ρ with
  | nil => simp [EnvNodup, envErase]
  | cons kv rest ih =>
    obtain ⟨k, w⟩ := kv
    simp only [EnvNodup, List.map_cons, List.nodup_cons] at h
    by_cases hk : k = n
    · simpa [EnvNodup, envErase, hk] using h.2
    · have h2 := ih h.2
      simp only [EnvNodup, envErase, if_neg hk, List.map_cons, List.nodup_cons]
      exact ⟨fun hmem => h.1 (envErase_mem_keys hmem), h2⟩

theorem envGet?_envErase_of_nodup {α : Type} {ρ : PyDict α} {n : String}
    (h : EnvNodup ρ) : envGet? (envErase ρ n) n = none := by
  induction ρ with
  | nil => rfl
  | cons kv rest ih =>
    obtain ⟨k, w⟩ := kv
    simp only [EnvNodup, List.map_cons, List.nodup_cons] at h
    by_cases hk : k = n
    · subst hk
      simp only [envErase, if_pos rfl]
      exact envGet?_eq_none_of_not_mem h.1
    · simp only [envErase, if_neg hk, envGet?]
      exact ih h.2

/-! ## Data model (`src/core/parser.py`, `src/core/lexer.py`) -/

/-- `TokenType` (lexer.py): the closed token tag set. -/
inductive TokenType where
  | folder | file | forKw | ifKw | elseKw | stdoutKw | stdinKw
  | identifier | stringLit | number
  | assign | eq | ne | lt | gt | le | ge
  | plus | minus | mul | div | mod | incr | decr | lshift | rshift
  | lparen | rparen | lbrace | rbrace | lbracket | rbracket
  | comma | colon | semicolon
  | templateVar | eof
  deriving DecidableEq, Repr

/-- `Token` (lexer.py): tag, text value, line, column. -/
structure Token where
  type : TokenType
  value : String
  line : Nat
  column : Nat
  deriving DecidableEq, Repr

/-- `FileType` enum (parser.py). -/
inductive FileType where
  | text | binary | json | yaml | xml
  deriving DecidableEq, Repr

/-- `FileType.value` — the Python enum's payload string. -/
def fileTypeValue : FileType → String
  | .text => "text"
  | .binary => "binary"
  | .json => "json"
  | .yaml => "yaml"
  | .xml => "xml"

/-- `Permission` enum (parser.py). -/
inductive Permission where
  | readOnly | writable | executableP | full
  deriving DecidableEq, Repr

/-- `Permission.value`. -/
def permissionValue : Permission → String
  | .readOnly => "444"
  | .writable => "644"
  | .executableP => "755"
  | .full => "777"

/-- The typed attribute values `parse_attribute_value` can produce
(string, int, bool, null, file-type tag, permission tag). -/
inductive AttrValue where
  | str (s : String)
  | int (n : Int)
  | bool (b : Bool)
  | null
  | fileType (t : FileType)
  | perm (p : Permission)
  deriving DecidableEq, Repr

/-- Python `str()` on an attribute value (enum reprs follow Python's
`EnumClass.MEMBER` form). -/
def pyStr : AttrValue → String
  | .str s => s
  | .int n => toString n
  | .bool b => if b then "True" else "False"
  | .null => "None"
  | .fileType .text => "FileType.TEXT"
  | .fileType .binary => "FileType.BINARY"
  | .fileType .json => "FileType.JSON"
  | .fileType .yaml => "FileType.YAML"
  | .fileType .xml => "FileType.XML"
  | .perm .readOnly => "Permission.READ_ONLY"
  | .perm .writable => "Permission.WRITABLE"
  | .perm .executableP => "Permission.EXECUTABLE"
  | .perm .full => "Permission.FULL"

/-- Python truthiness of an attribute value (`not replace_if_exists` in
`_create_file` applies truthiness, not a bool check). Enum members are
truthy objects. -/
def pyTruthy : AttrValue → Bool
  | .str s => s ≠ ""
  | .int n => n ≠ 0
  | .bool b => b
  | .null => false
  | .fileType _ => true
  | .perm _ => true

/-- The AST (parser.py): `FolderNode`, `FileNode`, `ForLoopNode`,
`OutputNode`, `InputNode`. `ForLoopNode.condition` stays a raw string as
in the source (the generator dispatches on it with a catch-all else);
`FileNode.template_vars` is informational only (spec §3) and is not
modelled. Line/column fields of AST nodes are unused by the claims and
omitted. -/
inductive Node where
  | folder (name : String) (attrs : PyDict AttrValue) (children : List Node)
  | file (name : String) (attrs : PyDict AttrValue)
  | forLoop (varName : String) (start endv step : Int) (condition : String)
      (children : List Node)
  | output (message : String)
  | input (target : String)

/-! ## Simple template substitution (`_apply_template_vars`) -/

/-- The literal pattern `${name}` that `re.escape` turns the placeholder
into. -/
def placeholderPat (name : String) : String :=
  "$" ++ ⟨[lbraceChar]⟩ ++ name ++ ⟨[rbraceChar]⟩

/-- `InteractiveFSGenerator._apply_template_vars` (generator.py 187-196):
early return on an empty dict, else one `re.sub` pass per binding, in
dict insertion order; each pass replaces every `${name}` occurrence of
its own binding by the value, and the result of one pass is the input of
the next. -/
def applyTemplateVars (text : String) (vars : PyDict String) : String :=
  if vars = [] then text
  else vars.foldl (fun acc kv => replaceAllStr (placeholderPat kv.1) kv.2 acc) text

/-- Modelled from the spec (§4.3 "Template substitution (simple form)"),
for comparison with `applyTemplateVars`: a single simultaneous pass over
the template; every `${name}` occurrence whose name is bound is replaced
by the value, unbound placeholders stay verbatim. Fuel is the input
length (each step consumes at least one character). -/
def specSubstFuel (ρ : PyDict String) : Nat → List Char → List Char
  | 0, s => s
  | fuel + 1, s =>
    match s with
    | [] => []
    | c :: rest =>
      if c = '$' then
        match rest with
        | c2 :: rest2 =>
          if c2 = lbraceChar then
            match breakOn [rbraceChar] rest2 with
            | some (name, after) =>
              match envGet? ρ ⟨name⟩ with
              | some v => v.data ++ specSubstFuel ρ fuel after
              | none => c :: c2 :: (name ++ rbraceChar :: specSubstFuel ρ fuel after)
            | none => c :: specSubstFuel ρ fuel rest
          else c :: specSubstFuel ρ fuel rest
        | [] => [c]
      else c :: specSubstFuel ρ fuel rest

/-- Spec-words simultaneous substitution, string-level. -/
def specSimulSubst (text : String) (ρ : PyDict String) : String :=
  ⟨specSubstFuel ρ text.data.length text.data⟩

/-! ## ForLoop value sequence (`_generate_for_loop`, generator.py 156-173) -/

/-- The `condition_func` lambda chain: dispatch on the condition string,
with `!=` as the catch-all else branch, exactly as in the source. -/
def condFun (c : String) (endv : Int) (x : Int) : Bool :=
  if c = "<" then decide (x < endv)
  else if c = "<=" then decide (x ≤ endv)
  else if c = ">" then decide (endv < x)
  else if c = ">=" then decide (endv ≤ x)
  else decide (x ≠ endv)

/-- The value-collection `while` loop
(`i = node.start; while condition_func(i): values.append(i); i += node.step`),
with fuel: `none` means the loop has not exited within `fuel` iterations. -/
def whileValues : Nat → (Int → Bool) → Int → Int → Option (List Int)
  | 0, _, _, _ => none
  | fuel + 1, cond, i, step =>
    if cond i then (whileValues fuel cond (i + step) step).map (fun vs => i :: vs)
    else some []

/-! ## File-content resolution (`_get_file_content`, generator.py 85-111) -/

/-- `re.match` for the pattern fragment the file-contents fallback uses: an
optional leading `^` (redundant, since `re.match` anchors at the start),
literal characters, `.` (any one character), and a postfix `*`. A match is
a prefix match, as with `re.match` (no implicit anchoring at the end).
Fuel decreases at every step; `|pat| + |s| + 1` is always sufficient, so
the `0` case is unreachable from `reMatch`. -/
def reMatchFuel : Nat → List Char → List Char → Bool
  | 0, _, _ => false
  | fuel + 1, pat, s =>
    match pat with
    | [] => true
    | c :: p =>
      match p with
      | '*' :: p2 =>
        reMatchFuel fuel p2 s ||
          (match s with
           | [] => false
           | x :: xs => (c = '.' || c = x) && reMatchFuel fuel pat xs)
      | _ =>
        match s with
        | [] => false
        | x :: xs => (c = '.' || c = x) && reMatchFuel fuel p xs

/-- String-level `re.match pattern name` (start-anchored prefix match). -/
def reMatch (pat s : String) : Bool :=
  let pd := match pat.data with
    | '^' :: rest => rest
    | l => l
  reMatchFuel (pd.length + s.data.length + 1) pd s.data

/-- Step 4 of the chain: the first `(pattern, content)` entry of the
file-contents dict, in declaration order, whose pattern matches the file
name (`for pattern, content in self.file_contents.items(): if
re.match(pattern, file_name): return content`). -/
def findPatternContent (fcs : PyDict String) (name : String) : Option String :=
  (fcs.find? (fun kv => reMatch kv.1 name)).map Prod.snd

/-- Step 2 of the chain: the `template` attribute, when it is a string
naming an entry of the templates dict (`template_name in self.templates`
is false for non-string values and missing names, and the code then falls
through). -/
def templateLookup (attrs : PyDict AttrValue) (tms : PyDict String) : Option String :=
  match envGet? attrs "template" with
  | some (.str s) => envGet? tms s
  | _ => none

/-- The per-type default bodies (the `defaults` dict literal in
`_get_file_content`), with the two `datetime.now()` renderings passed
in. -/
def typeDefaultContent (ft : FileType) (fileName now nowIso : String) : String :=
  match ft with
  | .text => "# File: " ++ fileName ++ "\n# Created: " ++ now ++ "\n"
  | .json => "\x7b\n  \"name\": \"" ++ fileName ++ "\"\n\x7d\n"
  | .yaml => "# " ++ fileName ++ "\ncreated: " ++ nowIso ++ "\n"
  | .xml => "<?xml version=\"1.0\"?>\n<root>\n  <file>" ++ fileName ++ "</file>\n</root>\n"
  | .binary => ""

/-- Step 5: `attributes.get('type', FileType.TEXT)` then
`defaults.get(file_type, "")` — a non-`FileType` value in the `type`
attribute is not a key of the defaults dict, so it yields `""`. -/
def defaultContent (typeAttr : Option AttrValue) (fileName now nowIso : String) : String :=
  match typeAttr with
  | some (.fileType ft) => typeDefaultContent ft fileName now nowIso
  | none => typeDefaultContent .text fileName now nowIso
  | some _ => ""

/-- `_get_file_content(node, file_name)`: the five-step precedence chain,
first match wins. -/
def getFileContent (tms fcs : PyDict String) (attrs : PyDict AttrValue)
    (fileName now nowIso : String) : String :=
  match envGet? attrs "content" with
  | some v => pyStr v
  | none =>
    match templateLookup attrs tms with
    | some t => t
    | none =>
      match envGet? fcs fileName with
      | some c => c
      | none =>
        match findPatternContent fcs fileName with
        | some c => c
        | none => defaultContent (envGet? attrs "type") fileName now nowIso

/-! ## Generator state and configuration -/

/-- The three sections of the configuration object (`FSConfig`,
config.py). -/
structure FSConfigData where
  file_contents : PyDict String
  templates : PyDict String
  defaults : PyDict AttrValue

/-- The built-in defaults installed by `FSConfig.__init__`. -/
def fsConfigInitDefaults : PyDict AttrValue :=
  [("encoding", .str "utf-8"), ("replaceifexists", .bool true),
   ("type", .fileType .text), ("permissions", .str "644"),
   ("hidden", .bool false), ("executable", .bool false)]

/-- Python `dict.update`: fold the new bindings into the base dict. -/
def dictUpdate {α : Type} (base upd : PyDict α) : PyDict α :=
  upd.foldl (fun acc kv => envSet acc kv.1 kv.2) base

/-- `FSConfig.load_from_dict` (config.py 41-46): replace `file_contents`
and `templates`, merge the supplied defaults over the built-in ones. -/
def fsConfigLoadFromDict (fc tms : PyDict String) (dfl : PyDict AttrValue) : FSConfigData :=
  ⟨fc, tms, dictUpdate fsConfigInitDefaults dfl⟩

/-- What the generator keeps from its inputs.
`InteractiveFSGenerator.__init__` (generator.py 8-17) reads only
`config.get('file_contents')` and `config.get('templates')` from the
configuration dict; the `defaults` section is never consulted anywhere in
the generator, which is why `mkGenerator` below has no defaults field to
copy into. The `now`/`nowIso` fields stand for the `datetime.now()`
renderings used in default content. -/
structure GenCfg where
  fileContents : PyDict String
  templates : PyDict String
  now : String
  nowIso : String

/-- Generator construction from a configuration: the projection performed
by `__init__`. -/
def mkGenerator (config : FSConfigData) (now nowIso : String) : GenCfg :=
  ⟨config.file_contents, config.templates, now, nowIso⟩

/-- The `date`/`time` system variables seeded into the environment by
`__init__`. -/
def initVariables (dateStr timeStr : String) : PyDict String :=
  [("date", dateStr), ("time", timeStr)]

/-- The observable state of one generation run: the variable environment,
the filesystem log (directories and file contents by path — pre-existing
entries included, so `os.path.exists` is membership), the not-yet-consumed
stdin lines, and the stdout transcript. -/
structure GenState where
  vars : PyDict String
  dirs : List String
  files : PyDict String
  stdin : List String
  stdout : String
  deriving DecidableEq, Repr

/-- `os.path.join` with POSIX separator (names are treated as relative). -/
def joinPath (p n : String) : String := p ++ "/" ++ n

/-- `os.path.dirname`: everything before the last `/`, or `""`. -/
def dirname (p : String) : String :=
  match breakOn ['/'] p.data.reverse with
  | some (_, after) => ⟨after.reverse⟩
  | none => ""

/-- `os.makedirs(..., exist_ok=True)` on the log. -/
def addDir (d : String) (dirs : List String) : List String :=
  if dirs.contains d then dirs else dirs ++ [d]

/-- `os.path.exists` against the log. -/
def pathExists (st : GenState) (p : String) : Bool :=
  (envGet? st.files p).isSome || st.dirs.contains p

/-- The skip notice printed by `_create_file` (generator.py 116). -/
def skipMsg (p : String) : String :=
  "\x1B[1;31m!  Skipped existing file: " ++ p ++ "\n"

/-- `attributes.get('encoding', 'utf-8')`, rendered to a string as the
code's f-string does. -/
def resolveEncoding (attrs : PyDict AttrValue) : String :=
  pyStr ((envGet? attrs "encoding").getD (.str "utf-8"))

/-- `not attributes.get('replaceifexists', True)` uses Python truthiness. -/
def resolveReplace (attrs : PyDict AttrValue) : Bool :=
  pyTruthy ((envGet? attrs "replaceifexists").getD (.bool true))

/-- `attributes.get('type', FileType.TEXT)` in `_create_file`; a
non-`FileType` value later crashes on `file_type.value`, modelled as
`none`. -/
def resolveType (attrs : PyDict AttrValue) : Option FileType :=
  match envGet? attrs "type" with
  | none => some .text
  | some (.fileType ft) => some ft
  | some _ => none

/-- The successful tail of `_create_file`: record the written file and the
progress line. Binary/text write modes coincide in the model (encoding is
the identity). -/
def writeFile (st : GenState) (p c : String) (ft : FileType) (enc : String) :
    Option GenState :=
  some { st with
    files := envSet st.files p c,
    stdout := st.stdout ++ "Created file: " ++ p ++ " (" ++ fileTypeValue ft ++
      ", encoding: " ++ enc ++ ")\n" }

/-! ## The generator walk (`_generate_node` and friends) -/

/-- The generator's pending work: one node, a sibling sequence, or the
iteration of a for loop over its computed values. -/
inductive Job where
  | one (n : Node) (path : String)
  | seq (ns : List Node) (path : String)
  | loop (varName : String) (children : List Node) (vs : List Int) (path : String)

/-- The tree walk (generator.py 29-196): `.one` is `_generate_node`
dispatch, `.seq` the child loops, `.loop` the per-value iteration of
`_generate_for_loop` with its save/bind/run/restore protocol; `del` on an
absent key (impossible when the body consists of generator operations) is
Python's `KeyError`, modelled as `none`. All recursion is structural on
the fuel, and `none` covers both fuel exhaustion and the modelled runtime
errors. -/
def gen (cfg : GenCfg) : Nat → Job → GenState → Option GenState
  | 0, _, _ => none
  | _ + 1, .seq [] _, st => some st
  | fuel + 1, .seq (n :: ns) path, st =>
    match gen cfg fuel (.one n path) st with
    | some st1 => gen cfg fuel (.seq ns path) st1
    | none => none
  | _ + 1, .loop _ _ [] _, st => some st
  | fuel + 1, .loop varName children (v :: vs) path, st =>
    let old := envGet? st.vars varName
    let st1 := { st with vars := envSet st.vars varName (toString v) }
    match gen cfg fuel (.seq children path) st1 with
    | none => none
    | some st2 =>
      match old with
      | some ov =>
        gen cfg fuel (.loop varName children vs path)
          { st2 with vars := envSet st2.vars varName ov }
      | none =>
        match envGet? st2.vars varName with
        | some _ =>
          gen cfg fuel (.loop varName children vs path)
            { st2 with vars := envErase st2.vars varName }
        | none => none
  | fuel + 1, .one n path, st =>
    match n with
    | .folder name _attrs children =>
      let fname := applyTemplateVars name st.vars
      let path2 := joinPath path fname
      let st1 := { st with
        dirs := addDir path2 st.dirs,
        stdout := st.stdout ++ "Created folder: " ++ path2 ++ "\n" }
      gen cfg fuel (.seq children path2) st1
    | .file name attrs =>
      let fname := applyTemplateVars name st.vars
      let path2 := joinPath path fname
      let content0 := getFileContent cfg.templates cfg.fileContents attrs fname
        cfg.now cfg.nowIso
      let content := applyTemplateVars content0 st.vars
      if pathExists st path2 && !resolveReplace attrs then
        some { st with stdout := st.stdout ++ skipMsg path2 }
      else
        let st1 := { st with dirs := addDir (dirname path2) st.dirs }
        match resolveType attrs with
        | some ft => writeFile st1 path2 content ft (resolveEncoding attrs)
        | none => none
    | .output msg =>
      some { st with stdout := st.stdout ++ applyTemplateVars msg st.vars }
    | .input target =>
      match st.stdin with
      | [] => none
      | v :: rest =>
        some { st with vars := envSet st.vars target v, stdin := rest }
    | .forLoop varName startv endv step condition children =>
      match whileValues fuel (condFun condition endv) startv step with
      | none => none
      | some vs => gen cfg fuel (.loop varName children vs path) st

/-- `_generate_node` on a single node. -/
def genNode (cfg : GenCfg) (fuel : Nat) (n : Node) (path : String)
    (st : GenState) : Option GenState :=
  gen cfg fuel (.one n path) st

/-! ## Generator lemmas -/

theorem replaceAllFuel_of_not_sub (pat rep : List Char) :
    ∀ (fuel : Nat) (s : List Char), hasSub pat s = false →
      replaceAllFuel fuel pat rep s = s := by
  intro fuel
  induction fuel with
  | zero => intro s _; rfl
  | succ n ih =>
    intro s hs
    cases s with
    | nil => rfl
    | cons c rest =>
      simp only [hasSub, Bool.or_eq_false_iff] at hs
      simp only [replaceAllFuel]
      rw [if_neg (by simp [hs.1])]
      rw [ih rest hs.2]

theorem replaceAllStr_of_not_sub (pat rep s : String)
    (h : hasSub pat.data s.data = false) : replaceAllStr pat rep s = s := by
  unfold replaceAllStr
  rw [replaceAllFuel_of_not_sub _ _ _ _ h]

theorem foldl_subst_id (text : String) : ∀ vars : PyDict String,
    (∀ kv ∈ vars, hasSub (placeholderPat kv.1).data text.data = false) →
    vars.foldl (fun acc kv => replaceAllStr (placeholderPat kv.1) kv.2 acc) text = text := by
  intro vars
  induction vars with
  | nil => intro _; rfl
  | cons kv rest ih =>
    intro h
    simp only [List.foldl_cons]
    rw [replaceAllStr_of_not_sub _ _ _ (h kv (by simp))]
    exact ih (fun kv2 hm => h kv2 (by simp [hm]))

theorem whileValues_gt_diverges (fuel : Nat) :
    ∀ i : Int, 5 < i → whileValues fuel (condFun ">" 5) i 1 = none := by
  induction fuel with
  | zero => intro i _; rfl
  | succ n ih =>
    intro i h
    have hc : condFun ">" 5 i = true := by simp [condFun, h]
    simp only [whileValues, hc, if_true]
    rw [ih (i + 1) (by omega)]
    rfl

/-- Generation preserves the dict invariant of the variable environment. -/
theorem gen_vars_nodup (cfg : GenCfg) : ∀ (fuel : Nat) (job : Job) (st st' : GenState),
    gen cfg fuel job st = some st' → EnvNodup st.vars → EnvNodup st'.vars := by
  intro fuel
  induction fuel with
  | zero => intro job st st' h; simp [gen] at h
  | succ fuel ih =>
    intro job st st' h hnd
    cases job with
    | seq ns path =>
      cases ns with
      | nil =>
        simp only [gen, Option.some.injEq] at h
        exact h ▸ hnd
      | cons n rest =>
        simp only [gen] at h
        cases hg : gen cfg fuel (.one n path) st with
        | none => simp only [hg] at h; exact Option.noConfusion h
        | some st1 =>
          simp only [hg] at h
          exact ih _ _ _ h (ih _ _ _ hg hnd)
    | loop varName children vs path =>
      cases vs with
      | nil =>
        simp only [gen, Option.some.injEq] at h
        exact h ▸ hnd
      | cons v rest =>
        simp only [gen] at h
        cases hg : gen cfg fuel (.seq children path)
            { st with vars := envSet st.vars varName (toString v) } with
        | none => simp only [hg] at h; exact Option.noConfusion h
        | some st2 =>
          simp only [hg] at h
          have hnd2 : EnvNodup st2.vars :=
            ih _ _ _ hg (envSet_nodup _ _ hnd)
          cases hold : envGet? st.vars varName with
          | some ov =>
            simp only [hold] at h
            exact ih _ _ _ h (envSet_nodup _ _ hnd2)
          | none =>
            simp only [hold] at h
            cases h2 : envGet? st2.vars varName with
            | none => simp only [h2] at h; exact Option.noConfusion h
            | some w =>
              simp only [h2] at h
              exact ih _ _ _ h (envErase_nodup _ hnd2)
    | one n path =>
      cases n with
      | folder name attrs children =>
        simp only [gen] at h
        exact ih _ _ _ h hnd
      | file name attrs =>
        simp only [gen] at h
        split at h
        · simp only [Option.some.injEq] at h
          exact h ▸ hnd
        · split at h
          · simp only [writeFile, Option.some.injEq] at h
            exact h ▸ hnd
          · exact absurd h (by simp)
      | output msg =>
        simp only [gen, Option.some.injEq] at h
        exact h ▸ hnd
      | input target =>
        simp only [gen] at h
        cases hs : st.stdin with
        | nil => simp only [hs] at h; exact Option.noConfusion h
        | cons v rest =>
          simp only [hs, Option.some.injEq] at h
          rw [← h]
          exact envSet_nodup _ _ hnd
      | forLoop varName startv endv step condition children =>
        simp only [gen] at h
        cases hw : whileValues fuel (condFun condition endv) startv step with
        | none => simp only [hw] at h; exact Option.noConfusion h
        | some vs =>
          simp only [hw] at h
          exact ih _ _ _ h hnd

/-- The save/bind/run/restore protocol of `_generate_for_loop` restores
the loop variable's binding after every completed iteration sequence,
whatever the body did to the environment. -/
theorem gen_loop_restores (cfg : GenCfg) : ∀ (fuel : Nat) (varName : String)
    (children : List Node) (vs : List Int) (path : String) (st st' : GenState),
    EnvNodup st.vars →
    gen cfg fuel (.loop varName children vs path) st = some st' →
    envGet? st'.vars varName = envGet? st.vars varName := by
  intro fuel
  induction fuel with
  | zero => intro varName children vs path st st' _ h; simp [gen] at h
  | succ fuel ih =>
    intro varName children vs path st st' hnd h
    cases vs with
    | nil =>
      simp only [gen, Option.some.injEq] at h
      rw [← h]
    | cons v rest =>
      simp only [gen] at h
      cases hg : gen cfg fuel (.seq children path)
          { st with vars := envSet st.vars varName (toString v) } with
      | none => simp only [hg] at h; exact Option.noConfusion h
      | some st2 =>
        simp only [hg] at h
        have hnd2 : EnvNodup st2.vars :=
          gen_vars_nodup cfg fuel _ _ _ hg (envSet_nodup _ _ hnd)
        cases hold : envGet? st.vars varName with
        | some ov =>
          simp only [hold] at h
          have hr := ih varName children rest path _ _ (envSet_nodup _ _ hnd2) h
          rw [hr]
          simp only [envGet?_envSet]
        | none =>
          simp only [hold] at h
          cases h2 : envGet? st2.vars varName with
          | none => simp only [h2] at h; exact Option.noConfusion h
          | some w =>
            simp only [h2] at h
            have hr := ih varName children rest path _ _ (envErase_nodup _ hnd2) h
            rw [hr]
            exact envGet?_envErase_of_nodup hnd2

/-- C3: after a ForLoop finishes, the environment's binding for its loop
variable equals its pre-loop state (the previous value if one existed,
otherwise absent), for every pre-loop environment (with the dict
invariant of unique keys), every loop header, and every loop body. -/
theorem C3_loop_variable_restored (cfg : GenCfg) (fuel : Nat) (varName : String)
    (startv endv step : Int) (condition : String) (children : List Node)
    (path : String) (st st' : GenState)
    (hnd : EnvNodup st.vars)
    (h : genNode cfg fuel (.forLoop varName startv endv step condition children)
        path st = some st') :
    envGet? st'.vars varName = envGet? st.vars varName := by
  cases fuel with
  | zero => simp [genNode, gen] at h
  | succ fuel =>
    simp only [genNode, gen] at h
    cases hw : whileValues fuel (condFun condition endv) startv step with
    | none => simp only [hw] at h; exact Option.noConfusion h
    | some vs =>
      simp only [hw] at h
      exact gen_loop_restores cfg fuel varName children vs path st st' hnd h

def c3Cfg : GenCfg := ⟨[], [], "NOW", "ISO"⟩

def c3St : GenState := ⟨[("i", "outer")], [], [], [], ""⟩

def c3Loop : Node := .forLoop "i" 0 2 1 "<" [.output "x"]

def c3Out : GenState := ⟨[("i", "outer")], [], [], [], "xx"⟩

/-- C3 witness: a two-iteration `for [i=0; i<2; i++]` loop over an
environment binding `i` to `"outer"` leaves that binding intact. -/
theorem C3_loop_variable_restored_witness :
    (genNode c3Cfg 10 c3Loop "p" c3St).map (fun s => envGet? s.vars "i") =
      some (some "outer") := by
  have h : genNode c3Cfg 10 c3Loop "p" c3St = some c3Out := by decide
  have h2 := C3_loop_variable_restored c3Cfg 10 "i" 0 2 1 "<" [.output "x"] "p"
    c3St c3Out (by decide) h
  rw [h]
  simp only [Option.map_some']
  rw [h2]
  decide

/-- C1: the for-loop value sequence is computed by an unbounded `while`
loop (generator.py 170-173), which never exits when the condition stays
true along the walk: at `start = 6`, condition `>`, `end = 5`, step `+1`
no amount of fuel makes it return (first conjunct), and the whole node's
generation returns no result for any fuel (third conjunct). The claim's
own example (`start = 0`, condition `>`, `end = 5`, step `+1`) does
terminate immediately with the empty sequence (second conjunct): the
claimed totality holds there but fails in general. -/
theorem C1_forloop_value_sequence :
    (∀ fuel : Nat, whileValues fuel (condFun ">" 5) 6 1 = none) ∧
    (∀ fuel : Nat, whileValues (fuel + 1) (condFun ">" 5) 0 1 = some []) ∧
    (∀ (cfg : GenCfg) (fuel : Nat) (path : String) (st : GenState),
      genNode cfg fuel (.forLoop "i" 6 5 1 ">" []) path st = none) := by
  refine ⟨fun fuel => whileValues_gt_diverges fuel 6 (by norm_num), ?_, ?_⟩
  · intro fuel
    have hc : condFun ">" 5 0 = false := by decide
    simp [whileValues, hc]
  · intro cfg fuel path st
    cases fuel with
    | zero => rfl
    | succ fuel =>
      simp only [genNode, gen]
      rw [whileValues_gt_diverges fuel 6 (by norm_num)]

/-- C7: a File node whose rendered target path already exists and whose
`replaceifexists` attribute is `False` is skipped: the generator returns
successfully (the run continues), the filesystem log — in particular the
existing file's content — is untouched, and the only effect is the
reported skip notice on stdout. -/
theorem C7_skip_on_existing (cfg : GenCfg) (fuel : Nat) (name : String)
    (attrs : PyDict AttrValue) (path : String) (st : GenState) (p : String)
    (hp : p = joinPath path (applyTemplateVars name st.vars))
    (hex : pathExists st p = true)
    (hattr : envGet? attrs "replaceifexists" = some (.bool false)) :
    genNode cfg (fuel + 1) (.file name attrs) path st =
      some { st with stdout := st.stdout ++ skipMsg p } := by
  subst hp
  have hr : resolveReplace attrs = false := by
    simp [resolveReplace, hattr, pyTruthy]
  simp only [genNode, gen, hex, hr, Bool.not_false, Bool.and_true, if_true]

def c7St : GenState := ⟨[], [], [("out/a.txt", "old")], [], ""⟩

/-- C7 witness: a concrete skip, leaving the pre-existing
`out/a.txt` = `"old"` byte-for-byte intact. -/
theorem C7_skip_on_existing_witness :
    genNode c3Cfg 1 (.file "a.txt" [("replaceifexists", .bool false)]) "out" c7St =
      some { c7St with stdout := c7St.stdout ++ skipMsg "out/a.txt" } :=
  C7_skip_on_existing c3Cfg 0 "a.txt" [("replaceifexists", .bool false)] "out" c7St
    "out/a.txt" (by decide) (by decide) (by decide)

/-- Modelled from the spec (§6, "defaults ... merged beneath per-node
attributes"): the attribute resolution the claim describes — the node's
own attribute if present, else the configuration defaults section. For
comparison with the code's `resolveEncoding`/`resolveReplace`/
`resolveType`, which never consult the defaults. -/
def specResolveAttr (defaults attrs : PyDict AttrValue) (name : String) :
    Option AttrValue :=
  match envGet? attrs name with
  | some v => some v
  | none => envGet? defaults name

/-- C4 counterexample: a configuration whose defaults section sets
`encoding` to `"latin-1"`; generating a File node with no `encoding`
attribute writes with encoding `utf-8` (visible in the progress line),
where the claim's resolution rule would give `latin-1`: the generator
reads only `file_contents` and `templates` from the configuration and
resolves attribute fallbacks from fixed built-in values. -/
theorem C4_defaults_ignored_counterexample :
    envGet? (fsConfigLoadFromDict [] [] [("encoding", .str "latin-1")]).defaults
        "encoding" = some (.str "latin-1") ∧
    specResolveAttr (fsConfigLoadFromDict [] [] [("encoding", .str "latin-1")]).defaults
        [] "encoding" = some (.str "latin-1") ∧
    (genNode (mkGenerator (fsConfigLoadFromDict [] [] [("encoding", .str "latin-1")])
        "NOW" "ISO") 2 (.file "a.txt" []) "out" ⟨[], [], [], [], ""⟩).map
        GenState.stdout =
      some "Created file: out/a.txt (text, encoding: utf-8)\n" ∧
    resolveEncoding [] = "utf-8" ∧ ("utf-8" : String) ≠ "latin-1" :=
  ⟨by decide, by decide, by decide, by decide, by decide⟩

/-- C4 (amended): node attributes do take precedence when present, but the
fallback for an absent attribute is a fixed built-in default (encoding
`utf-8`, replace-if-exists true, type text), not the configuration's
defaults section; the generator construction discards the defaults
section entirely, so generation is independent of it. -/
theorem C4_builtin_fallbacks :
    (∀ (fc tms : PyDict String) (d1 d2 : PyDict AttrValue) (now nowIso : String),
      mkGenerator ⟨fc, tms, d1⟩ now nowIso = mkGenerator ⟨fc, tms, d2⟩ now nowIso) ∧
    (∀ (attrs : PyDict AttrValue) (v : AttrValue),
      envGet? attrs "encoding" = some v → resolveEncoding attrs = pyStr v) ∧
    (∀ attrs : PyDict AttrValue,
      envGet? attrs "encoding" = none → resolveEncoding attrs = "utf-8") ∧
    (∀ (attrs : PyDict AttrValue) (v : AttrValue),
      envGet? attrs "replaceifexists" = some v → resolveReplace attrs = pyTruthy v) ∧
    (∀ attrs : PyDict AttrValue,
      envGet? attrs "replaceifexists" = none → resolveReplace attrs = true) ∧
    (∀ attrs : PyDict AttrValue,
      envGet? attrs "type" = none → resolveType attrs = some .text) := by
  refine ⟨fun _ _ _ _ _ _ => rfl, ?_, ?_, ?_, ?_, ?_⟩
  · intro attrs v h; simp [resolveEncoding, h]
  · intro attrs h; simp [resolveEncoding, h, pyStr]
  · intro attrs v h; simp [resolveReplace, h]
  · intro attrs h; simp [resolveReplace, h, pyTruthy]
  · intro attrs h; simp [resolveType, h]

/-- C4 witness: the amended rule applied at a node that does set its own
`encoding`. -/
theorem C4_builtin_fallbacks_witness :
    resolveEncoding [("encoding", AttrValue.str "koi8-r")] = "koi8-r" := by
  have h := C4_builtin_fallbacks.2.1 [("encoding", AttrValue.str "koi8-r")]
    (.str "koi8-r") (by decide)
  simpa [pyStr] using h

/-- C6 counterexample: with the environment binding `a` to the text
`"${b}"` and then `b` to `"2"`, rendering `"${a}"` yields `"2"` — the
occurrence of `${a}` is not replaced by the stringified value of `a`
(which the claim's simultaneous reading, `specSimulSubst`, produces):
substitution is one `re.sub` pass per binding, and the text substituted
for `a` is rewritten by the later pass for `b`. -/
theorem C6_simultaneous_reading_fails :
    applyTemplateVars "$\x7ba\x7d" [("a", "$\x7bb\x7d"), ("b", "2")] = "2" ∧
    specSimulSubst "$\x7ba\x7d" [("a", "$\x7bb\x7d"), ("b", "2")] = "$\x7bb\x7d" ∧
    applyTemplateVars "$\x7ba\x7d" [("a", "$\x7bb\x7d"), ("b", "2")] ≠
      specSimulSubst "$\x7ba\x7d" [("a", "$\x7bb\x7d"), ("b", "2")] :=
  ⟨by decide, by decide, by decide⟩

/-- C6 (amended): substitution is sequential, one pass per binding in
insertion order. When no binding's placeholder pattern occurs in the
template at all, the template is returned unchanged (first conjunct, which
subsumes "a template containing no placeholders is unchanged"); the
claim's concrete examples hold: `"${x}"` with `x = "5"` renders to `"5"`,
`"${y}"` with `y` unbound stays `"${y}"` verbatim, and an empty
environment returns the template unchanged by the early-return branch. -/
theorem C6_sequential_substitution :
    (∀ (text : String) (vars : PyDict String),
      (∀ kv ∈ vars, hasSub (placeholderPat kv.1).data text.data = false) →
      applyTemplateVars text vars = text) ∧
    applyTemplateVars "$\x7bx\x7d" [("x", "5")] = "5" ∧
    applyTemplateVars "$\x7by\x7d" [("x", "5")] = "$\x7by\x7d" ∧
    (∀ text : String, applyTemplateVars text [] = text) := by
  refine ⟨?_, by decide, by decide, fun text => rfl⟩
  intro text vars h
  unfold applyTemplateVars
  by_cases hv : vars = []
  · simp [hv]
  · rw [if_neg hv]
    exact foldl_subst_id text vars h

/-- C6 witness: the amended no-occurrence rule applied at a concrete
placeholder-free template with a nonempty environment. -/
theorem C6_sequential_substitution_witness :
    applyTemplateVars "hello" [("k", "v")] = "hello" :=
  C6_sequential_substitution.1 "hello" [("k", "v")] (by decide)

/-- C10: simple template substitution is sequential per binding, not
simultaneous — with `a` bound to the text `"${a2}"` (processed first) and
`a2` bound to `"2"` (processed later), rendering `"${a}"` yields `"2"`,
because the text substituted for `a` is itself rewritten by the later
pass; with the same two bindings in the opposite insertion order the
result is `"${a2}"`, so the result depends on binding order. -/
theorem C10_sequential_per_binding :
    applyTemplateVars "$\x7ba\x7d" [("a", "$\x7ba2\x7d"), ("a2", "2")] = "2" ∧
    applyTemplateVars "$\x7ba\x7d" [("a2", "2"), ("a", "$\x7ba2\x7d")] = "$\x7ba2\x7d" ∧
    applyTemplateVars "$\x7ba\x7d" [("a", "$\x7ba2\x7d"), ("a2", "2")] ≠
      applyTemplateVars "$\x7ba\x7d" [("a2", "2"), ("a", "$\x7ba2\x7d")] :=
  ⟨by decide, by decide, by decide⟩

/-- C2: the content-resolution chain of `_get_file_content`, step by step
with first match winning — (1) the literal `content` attribute,
stringified; (2) a string `template` attribute naming an entry of the
templates dict; (3) the rendered file name as an exact key of the
file-contents dict; (4) the first file-contents entry, in declaration
order, whose pattern key matches the file name from its start; (5) the
type-keyed default body, with absent `type` defaulting to text. The sixth
and seventh conjuncts are the spec's own examples (`content` beats
`template`; the prefix-anchored pattern `"^test_.*"` resolves
`test_1.txt`), and the last is the text default body. -/
theorem C2_content_precedence :
    (∀ (tms fcs : PyDict String) (attrs : PyDict AttrValue) (name now iso : String)
      (v : AttrValue), envGet? attrs "content" = some v →
      getFileContent tms fcs attrs name now iso = pyStr v) ∧
    (∀ (tms fcs : PyDict String) (attrs : PyDict AttrValue) (name now iso s t : String),
      envGet? attrs "content" = none →
      envGet? attrs "template" = some (.str s) →
      envGet? tms s = some t →
      getFileContent tms fcs attrs name now iso = t) ∧
    (∀ (tms fcs : PyDict String) (attrs : PyDict AttrValue) (name now iso c : String),
      envGet? attrs "content" = none →
      templateLookup attrs tms = none →
      envGet? fcs name = some c →
      getFileContent tms fcs attrs name now iso = c) ∧
    (∀ (tms fcs : PyDict String) (attrs : PyDict AttrValue) (name now iso c : String),
      envGet? attrs "content" = none →
      templateLookup attrs tms = none →
      envGet? fcs name = none →
      findPatternContent fcs name = some c →
      getFileContent tms fcs attrs name now iso = c) ∧
    (∀ (tms fcs : PyDict String) (attrs : PyDict AttrValue) (name now iso : String),
      envGet? attrs "content" = none →
      templateLookup attrs tms = none →
      envGet? fcs name = none →
      findPatternContent fcs name = none →
      getFileContent tms fcs attrs name now iso =
        defaultContent (envGet? attrs "type") name now iso) ∧
    getFileContent [("tpl", "T")] [] [("content", .str "C"), ("template", .str "tpl")]
      "f" "N" "I" = "C" ∧
    getFileContent [] [("^test_.*", "X")] [] "test_1.txt" "N" "I" = "X" ∧
    (∀ name now iso : String, defaultContent none name now iso =
      "# File: " ++ name ++ "\n# Created: " ++ now ++ "\n") := by
  refine ⟨?_, ?_, ?_, ?_, ?_, by decide, by decide, fun _ _ _ => rfl⟩
  · intro tms fcs attrs name now iso v h
    simp [getFileContent, h]
  · intro tms fcs attrs name now iso s t h1 h2 h3
    simp [getFileContent, templateLookup, h1, h2, h3]
  · intro tms fcs attrs name now iso c h1 h2 h3
    simp [getFileContent, h1, h2, h3]
  · intro tms fcs attrs name now iso c h1 h2 h3 h4
    simp [getFileContent, h1, h2, h3, h4]
  · intro tms fcs attrs name now iso h1 h2 h3 h4
    simp [getFileContent, h1, h2, h3, h4]

/-- C2 witness: step (1) applied at a concrete node with an integer
`content` attribute, stringified by `str()`. -/
theorem C2_content_precedence_witness :
    getFileContent [] [] [("content", AttrValue.int 5)] "f" "N" "I" = "5" := by
  have h := C2_content_precedence.1 [] [] [("content", AttrValue.int 5)] "f" "N" "I"
    (.int 5) (by decide)
  simpa [pyStr] using h

/-! ## Template renderer conditionals (`TemplateEngine._process_conditionals`,
templates.py 24-49) -/

/-- The literal `"\x7bendif\x7d"` terminator of a conditional block. -/
def endifPat : List Char :=
  lbraceChar :: 'e' :: 'n' :: 'd' :: 'i' :: 'f' :: [rbraceChar]

/-- The scan performed by `re.sub(r'\x7bif\s+([^\x7d]+)\x7d(.*?)\x7bendif\x7d', ...)`
over a template: every non-overlapping match contributes
`match.group(1).strip()` — the text between `if` plus mandatory
whitespace and the first closing brace, stripped — which is the
`condition` string the replacement callback hands to Python `eval` after
bare-name context substitution. The group needs a whitespace head and at
least two characters (`\s+` then `[^...]+`); a position that fails to
match is skipped as the regex engine does. Fuel is the input length. -/
def condExtractFuel : Nat → List Char → List String
  | 0, _ => []
  | _ + 1, [] => []
  | fuel + 1, c :: rest =>
    if c = lbraceChar then
      match rest with
      | 'i' :: 'f' :: rest2 =>
        match breakOn [rbraceChar] rest2 with
        | some (s, rest3) =>
          if 2 ≤ s.length ∧ isWsChar (s.headD 'x') = true then
            match breakOn endifPat rest3 with
            | some (_, rest4) => pyStrip s :: condExtractFuel fuel rest4
            | none => condExtractFuel fuel rest
          else condExtractFuel fuel rest
        | none => condExtractFuel fuel rest
      | _ => condExtractFuel fuel rest
    else condExtractFuel fuel rest

/-- The callback's variable substitution
(`condition.replace(key, str(value))` per context entry): plain textual
replacement of each bare context key, in insertion order. -/
def bareSubst (ctx : PyDict String) (s : String) : String :=
  ctx.foldl (fun acc kv => replaceAllStr kv.1 kv.2 acc) s

/-- The exact strings `_process_conditionals` passes to `eval(...)`
(templates.py 42) for a given template and context. -/
def evalConditionArgs (template : String) (ctx : PyDict String) : List String :=
  (condExtractFuel template.data.length template.data).map (bareSubst ctx)

/-- C5: the conditional-block pass hands the raw (stripped, substituted)
condition text to the host evaluator verbatim — for the template
`"\x7bif ().__class__.__mro__\x7dX\x7bendif\x7d"` the argument reaching `eval`
is the host-language expression `"().__class__.__mro__"`, which is not in
any closed literal/comparison/boolean/arithmetic grammar; the second
conjunct shows context values flowing into the evaluated text. -/
theorem C5_condition_text_reaches_eval :
    evalConditionArgs "\x7bif ().__class__.__mro__\x7dX\x7bendif\x7d" [] =
      ["().__class__.__mro__"] ∧
    evalConditionArgs "\x7bif n > 0\x7dY\x7bendif\x7d" [("n", "3")] = ["3 > 0"] :=
  ⟨by decide, by decide⟩

/-! ## Parser embedding (`Parser`, parser.py 53-289) -/

/-- A parser outcome: success with a value and the new token position,
a `ParseError` (a raised `SyntaxError` carrying the offending token's line
and column, from `Parser.error`), a modelled host-level error (the
`None` current token of an empty token list, or `int()` on a non-integer
numeral), or fuel exhaustion. -/
inductive PR (α : Type) where
  | ok (a : α) (pos : Nat)
  | perr (line col : Nat)
  | host
  | out

/-- Sequencing that propagates the three failure outcomes. -/
def PR.bind {α β : Type} (r : PR α) (f : α → Nat → PR β) : PR β :=
  match r with
  | .ok a p => f a p
  | .perr l c => .perr l c
  | .host => .host
  | .out => .out

/-- The synthetic `Token(TokenType.EOF, "")` that `eat` installs past the
end of the list (default line 1, column 1). -/
def synthEof : Token := ⟨.eof, "", 1, 1⟩

/-- `self.current_token` at a given position: `tokens[pos]` in range,
the synthetic EOF token beyond. -/
def curTok : List Token → Nat → Token
  | [], _ => synthEof
  | t :: _, 0 => t
  | _ :: ts, n + 1 => curTok ts n

/-- `Parser.eat(token_type)` (parser.py 63-73): advance if the current
token has the expected type, else `error` at the current token. (The
optional expected-value argument is never passed in this parser.) -/
def eatT (ts : List Token) (tt : TokenType) (pos : Nat) : PR Unit :=
  let ct := curTok ts pos
  if ct.type = tt then .ok () (pos + 1) else .perr ct.line ct.column

/-- Python `int(value)` on a numeral token: tokens whose text is all
digits convert; anything else (e.g. a lexed `1.5`) raises `ValueError`,
modelled as the host-level failure. -/
def decodeInt (s : String) : Option Int :=
  if s.data ≠ [] ∧ s.data.all (fun c => c.isDigit) then
    some (Int.ofNat (s.data.foldl (fun acc c => acc * 10 + (c.toNat - 48)) 0))
  else none

/-- The accepted comparison operators of a for-loop header
(parser.py 193). -/
def opList : List String := ["<", "<=", ">", ">=", "!="]

/-- The string-literal coercions of `parse_attribute_value`
(parser.py 255-262): file-type names (case-insensitive) become file-type
tags, the four permission literals become permission tags, all other
strings stay strings. -/
def coerceAttrString (s : String) : AttrValue :=
  if s.toLower = "text" then .fileType .text
  else if s.toLower = "binary" then .fileType .binary
  else if s.toLower = "json" then .fileType .json
  else if s.toLower = "yaml" then .fileType .yaml
  else if s.toLower = "xml" then .fileType .xml
  else if s = "444" then .perm .readOnly
  else if s = "644" then .perm .writable
  else if s = "755" then .perm .executableP
  else if s = "777" then .perm .full
  else .str s

/-- `parse_attribute_value` (parser.py 254-280). -/
def parseAttrValue (ts : List Token) (pos : Nat) : PR AttrValue :=
  let ct := curTok ts pos
  if ct.type = .stringLit then .ok (coerceAttrString ct.value) (pos + 1)
  else if ct.type = .number then
    match decodeInt ct.value with
    | some n => .ok (.int n) (pos + 1)
    | none => .host
  else if ct.type = .identifier then
    if ct.value.toLower = "true" || ct.value.toLower = "false" then
      .ok (.bool (ct.value.toLower = "true")) (pos + 1)
    else if ct.value.toLower = "null" then .ok .null (pos + 1)
    else .ok (.str ct.value) (pos + 1)
  else .perr ct.line ct.column

/-- The `while self.current_token.type != RPAREN` loop of
`parse_attributes` (parser.py 237-250): attribute name, `=`, value, an
optional comma; duplicate names overwrite in place as dict assignment
does. Fuel bounds the number of loop iterations. -/
def parseAttrList (ts : List Token) : Nat → Nat → PyDict AttrValue → PR (PyDict AttrValue)
  | 0, _, _ => .out
  | fuel + 1, pos, acc =>
    let ct := curTok ts pos
    if ct.type = .rparen then .ok acc pos
    else if ct.type = .identifier then
      PR.bind (eatT ts .assign (pos + 1)) fun _ pos2 =>
        PR.bind (parseAttrValue ts pos2) fun v pos3 =>
          if (curTok ts pos3).type = .comma then
            parseAttrList ts fuel (pos3 + 1) (envSet acc ct.value v)
          else parseAttrList ts fuel pos3 (envSet acc ct.value v)
    else .perr ct.line ct.column

/-- `parse_attributes` (parser.py 233-252): `(`, the pair loop, `)`. -/
def parseAttributes (ts : List Token) (fuel : Nat) (pos : Nat) : PR (PyDict AttrValue) :=
  PR.bind (eatT ts .lparen pos) fun _ pos1 =>
    PR.bind (parseAttrList ts fuel pos1 []) fun attrs pos2 =>
      PR.bind (eatT ts .rparen pos2) fun _ pos3 => .ok attrs pos3

/-- The statement-level work of the parser: `one` is `parse_statement`
(returning a singleton node list), `many` the statement loops — `parse`'s
loop up to end-of-input (`stopAtBrace = false`) and the folder/for body
loops up to `RBRACE` (`stopAtBrace = true`, stop token not consumed; the
caller eats it). -/
inductive SJob where
  | one
  | many (stopAtBrace : Bool)

/-- `parse_folder` (parser.py 128-150) after the `FOLDER` keyword was
dispatched on (the keyword's `eat` is the `pos + 1`): name (identifier or
string), optional attribute list, `\x7b`, body statements via the supplied
continuation, `\x7d`. -/
def parseFolderTail (ts : List Token) (pAttrs : Nat → PR (PyDict AttrValue))
    (pBody : Nat → PR (List Node)) (pos : Nat) : PR (List Node) :=
  let ct1 := curTok ts (pos + 1)
  if ct1.type = .identifier || ct1.type = .stringLit then
    PR.bind (if (curTok ts (pos + 2)).type = .lparen then pAttrs (pos + 2)
             else .ok [] (pos + 2)) fun attrs pos3 =>
      PR.bind (eatT ts .lbrace pos3) fun _ pos4 =>
        PR.bind (pBody pos4) fun children pos5 =>
          PR.bind (eatT ts .rbrace pos5) fun _ pos6 =>
            .ok [.folder ct1.value attrs children] pos6
  else .perr ct1.line ct1.column

/-- `parse_file` (parser.py 152-167): name, optional attribute list, no
body. (`_extract_template_vars` on the name is informational only and not
modelled.) -/
def parseFileTail (ts : List Token) (pAttrs : Nat → PR (PyDict AttrValue))
    (pos : Nat) : PR (List Node) :=
  let ct1 := curTok ts (pos + 1)
  if ct1.type = .identifier || ct1.type = .stringLit then
    PR.bind (if (curTok ts (pos + 2)).type = .lparen then pAttrs (pos + 2)
             else .ok [] (pos + 2)) fun attrs pos3 =>
      .ok [.file ct1.value attrs] pos3
  else .perr ct1.line ct1.column

/-- `parse_for_loop` (parser.py 169-231): `[`, the loop variable, `=`, a
numeric start, `;`, the same variable, an accepted comparison operator, a
numeric end, `;`, the same variable again, `++` or `--`, `]`, `\x7b`, the
body via the supplied continuation, `\x7d`. Each mismatch raises at the
current token; the operator's own `eat(self.current_token.type)` always
succeeds, hence the direct `+ 2` advances around it. -/
def parseForTail (ts : List Token) (pBody : Nat → PR (List Node))
    (pos : Nat) : PR (List Node) :=
  PR.bind (eatT ts .lbracket (pos + 1)) fun _ pos2 =>
    let ct2 := curTok ts pos2
    if ct2.type = .identifier then
      PR.bind (eatT ts .assign (pos2 + 1)) fun _ pos4 =>
        let ct4 := curTok ts pos4
        if ct4.type = .number then
          match decodeInt ct4.value with
          | none => .host
          | some startv =>
            PR.bind (eatT ts .semicolon (pos4 + 1)) fun _ pos6 =>
              let ct6 := curTok ts pos6
              if ct6.type = .identifier ∧ ct6.value = ct2.value then
                let ct7 := curTok ts (pos6 + 1)
                if opList.contains ct7.value then
                  let ct8 := curTok ts (pos6 + 2)
                  if ct8.type = .number then
                    match decodeInt ct8.value with
                    | none => .host
                    | some endv =>
                      PR.bind (eatT ts .semicolon (pos6 + 3)) fun _ pos10 =>
                        let ct10 := curTok ts pos10
                        if ct10.type = .identifier ∧ ct10.value = ct2.value then
                          let ct11 := curTok ts (pos10 + 1)
                          PR.bind
                            (if ct11.type = .incr then .ok (1 : Int) (pos10 + 2)
                             else if ct11.type = .decr then .ok (-1 : Int) (pos10 + 2)
                             else .perr ct11.line ct11.column) fun step pos12 =>
                            PR.bind (eatT ts .rbracket pos12) fun _ pos13 =>
                              PR.bind (eatT ts .lbrace pos13) fun _ pos14 =>
                                PR.bind (pBody pos14) fun children pos15 =>
                                  PR.bind (eatT ts .rbrace pos15) fun _ pos16 =>
                                    .ok [.forLoop ct2.value startv endv step
                                      ct7.value children] pos16
                        else .perr ct10.line ct10.column
                  else .perr ct8.line ct8.column
                else .perr ct7.line ct7.column
              else .perr ct6.line ct6.column
        else .perr ct4.line ct4.column
    else .perr ct2.line ct2.column

/-- `parse_output` (parser.py 104-114): `<<` then a string literal. -/
def parseOutputTail (ts : List Token) (pos : Nat) : PR (List Node) :=
  PR.bind (eatT ts .lshift (pos + 1)) fun _ pos2 =>
    let ct2 := curTok ts pos2
    if ct2.type = .stringLit then .ok [.output ct2.value] (pos2 + 1)
    else .perr ct2.line ct2.column

/-- `parse_input` (parser.py 116-126): `>>` then an identifier. -/
def parseInputTail (ts : List Token) (pos : Nat) : PR (List Node) :=
  PR.bind (eatT ts .rshift (pos + 1)) fun _ pos2 =>
    let ct2 := curTok ts pos2
    if ct2.type = .identifier then .ok [.input ct2.value] (pos2 + 1)
    else .perr ct2.line ct2.column

/-- The statement-level work of the parser: `one` is `parse_statement`
(parser.py 88-102, returning a singleton node list; every successful
branch returns a node, so the `if node:` filter is vacuous), `many` the
statement loops — `parse`'s loop up to end-of-input
(`stopAtBrace = false`) and the folder/for body loops up to `RBRACE`
(`stopAtBrace = true`, stop token not consumed; the caller eats it).
Where the code checks the current token itself and then calls `eat` with
that same type, the model advances directly, which is `eat`'s behaviour
under the established check; unguarded `eat` calls go through `eatT`.
Fuel bounds loop iterations and recursion depth. -/
def parseS (ts : List Token) : Nat → SJob → Nat → PR (List Node)
  | 0, _, _ => .out
  | fuel + 1, .many stopAtBrace, pos =>
    let ct := curTok ts pos
    if (stopAtBrace && ct.type = .rbrace) || (!stopAtBrace && ct.type = .eof) then
      .ok [] pos
    else
      PR.bind (parseS ts fuel .one pos) fun ns pos1 =>
        PR.bind (parseS ts fuel (.many stopAtBrace) pos1) fun ms pos2 =>
          .ok (ns ++ ms) pos2
  | fuel + 1, .one, pos =>
    let ct := curTok ts pos
    if ct.type = .folder then
      parseFolderTail ts (parseAttributes ts fuel) (parseS ts fuel (.many true)) pos
    else if ct.type = .file then
      parseFileTail ts (parseAttributes ts fuel) pos
    else if ct.type = .forKw then
      parseForTail ts (parseS ts fuel (.many true)) pos
    else if ct.type = .stdoutKw then
      parseOutputTail ts pos
    else if ct.type = .stdinKw then
      parseInputTail ts pos
    else .perr ct.line ct.column

/-- `Parser(tokens).parse()` (parser.py 54-86): on an empty token list
`__init__` leaves `current_token = None` and `parse`'s first attribute
access crashes (`AttributeError`), modelled as the host-level failure;
otherwise the statement loop runs until the end-of-input token. -/
def parseProgram (ts : List Token) (fuel : Nat) : PR (List Node) :=
  if ts = [] then .host
  else parseS ts fuel (.many false) 0

/-- A valid token stream: nonempty and terminated by the lexer's
end-of-input token (type EOF, empty text — `tokenize` always appends
`Token(TokenType.EOF, "")`, lexer.py 136). -/
def ValidStream (ts : List Token) : Prop :=
  ts ≠ [] ∧ (curTok ts (ts.length - 1)).type = .eof ∧
    (curTok ts (ts.length - 1)).value = ""

instance (ts : List Token) : Decidable (ValidStream ts) :=
  inferInstanceAs (Decidable (_ ∧ _ ∧ _))

/-! ## Parser consumption safety -/

theorem PR.bind_ok {α β : Type} {r : PR α} {f : α → Nat → PR β} {b : β} {q : Nat}
    (h : PR.bind r f = .ok b q) : ∃ a p, r = .ok a p ∧ f a p = .ok b q := by
  cases r with
  | ok a p => exact ⟨a, p, rfl, h⟩
  | perr l c => exact PR.noConfusion h
  | host => exact PR.noConfusion h
  | out => exact PR.noConfusion h

theorem advance_le_of_type {ts : List Token} {pos : Nat} {tt : TokenType}
    (hv : ValidStream ts) (hpos : pos ≤ ts.length - 1)
    (hty : (curTok ts pos).type = tt) (hne : tt ≠ .eof) :
    pos + 1 ≤ ts.length - 1 := by
  rcases Nat.lt_or_ge pos (ts.length - 1) with hlt | hge
  · omega
  · have he : pos = ts.length - 1 := le_antisymm hpos hge
    rw [he, hv.2.1] at hty
    exact absurd hty.symm hne

theorem advance_le_of_value {ts : List Token} {pos : Nat}
    (hv : ValidStream ts) (hpos : pos ≤ ts.length - 1)
    (hval : (curTok ts pos).value ≠ "") :
    pos + 1 ≤ ts.length - 1 := by
  rcases Nat.lt_or_ge pos (ts.length - 1) with hlt | hge
  · omega
  · have he : pos = ts.length - 1 := le_antisymm hpos hge
    rw [he, hv.2.2] at hval
    exact absurd rfl hval

theorem eatT_ok_inv {ts : List Token} {tt : TokenType} {pos : Nat} {u : Unit}
    {pos' : Nat} (h : eatT ts tt pos = .ok u pos') :
    (curTok ts pos).type = tt ∧ pos' = pos + 1 := by
  simp only [eatT] at h
  split at h
  · cases h
    exact ⟨by assumption, rfl⟩
  · exact PR.noConfusion h

theorem eatT_ok_le {ts : List Token} {tt : TokenType} {pos : Nat} {u : Unit}
    {pos' : Nat} (hv : ValidStream ts) (hpos : pos ≤ ts.length - 1)
    (h : eatT ts tt pos = .ok u pos') (hne : tt ≠ .eof) :
    pos' ≤ ts.length - 1 := by
  obtain ⟨hty, he⟩ := eatT_ok_inv h
  rw [he]
  exact advance_le_of_type hv hpos hty hne

theorem parseAttrValue_ok_le {ts : List Token} {pos : Nat} {v : AttrValue}
    {pos' : Nat} (hv : ValidStream ts) (hpos : pos ≤ ts.length - 1)
    (h : parseAttrValue ts pos = .ok v pos') : pos' ≤ ts.length - 1 := by
  simp only [parseAttrValue] at h
  split at h
  · cases h
    exact advance_le_of_type hv hpos (by assumption) (by simp)
  · split at h
    · split at h
      · cases h
        exact advance_le_of_type hv hpos (by assumption) (by simp)
      · exact PR.noConfusion h
    · split at h
      · split at h
        · cases h
          exact advance_le_of_type hv hpos (by assumption) (by simp)
        · split at h
          · cases h
            exact advance_le_of_type hv hpos (by assumption) (by simp)
          · cases h
            exact advance_le_of_type hv hpos (by assumption) (by simp)
      · exact PR.noConfusion h

theorem parseAttrList_ok_le {ts : List Token} (hv : ValidStream ts) :
    ∀ (fuel pos : Nat) (acc attrs : PyDict AttrValue) (pos' : Nat),
    pos ≤ ts.length - 1 → parseAttrList ts fuel pos acc = .ok attrs pos' →
    pos' ≤ ts.length - 1 := by
  intro fuel
  induction fuel with
  | zero => intro pos acc attrs pos' _ h; exact PR.noConfusion h
  | succ fuel ih =>
    intro pos acc attrs pos' hpos h
    simp only [parseAttrList] at h
    split at h
    · cases h
      exact hpos
    · split at h
      · obtain ⟨u1, p1, h1, h2⟩ := PR.bind_ok h
        obtain ⟨v2, p2, h3, h4⟩ := PR.bind_ok h2
        have hp0 : pos + 1 ≤ ts.length - 1 :=
          advance_le_of_type hv hpos (by assumption) (by simp)
        have hp1 : p1 ≤ ts.length - 1 := eatT_ok_le hv hp0 h1 (by simp)
        have hp2 : p2 ≤ ts.length - 1 := parseAttrValue_ok_le hv hp1 h3
        split at h4
        · have hp3 : p2 + 1 ≤ ts.length - 1 :=
            advance_le_of_type hv hp2 (by assumption) (by simp)
          exact ih _ _ _ _ hp3 h4
        · exact ih _ _ _ _ hp2 h4
      · exact PR.noConfusion h

theorem parseAttributes_ok_le {ts : List Token} {fuel pos : Nat}
    {attrs : PyDict AttrValue} {pos' : Nat} (hv : ValidStream ts)
    (hpos : pos ≤ ts.length - 1)
    (h : parseAttributes ts fuel pos = .ok attrs pos') : pos' ≤ ts.length - 1 := by
  unfold parseAttributes at h
  obtain ⟨u1, p1, h1, h2⟩ := PR.bind_ok h
  obtain ⟨a2, p2, h3, h4⟩ := PR.bind_ok h2
  obtain ⟨u3, p3, h5, h6⟩ := PR.bind_ok h4
  cases h6
  have hp1 : p1 ≤ ts.length - 1 := eatT_ok_le hv hpos h1 (by simp)
  have hp2 : p2 ≤ ts.length - 1 := parseAttrList_ok_le hv _ _ _ _ _ hp1 h3
  exact eatT_ok_le hv hp2 h5 (by simp)

theorem optAttrs_ok_le {ts : List Token} {fuel pos : Nat}
    {attrs : PyDict AttrValue} {pos' : Nat} (hv : ValidStream ts)
    (hpos : pos ≤ ts.length - 1)
    (h : (if (curTok ts pos).type = .lparen then parseAttributes ts fuel pos
          else PR.ok [] pos) = .ok attrs pos') : pos' ≤ ts.length - 1 := by
  split at h
  · exact parseAttributes_ok_le hv hpos h
  · cases h
    exact hpos

theorem advance_le_of_ne_eof {ts : List Token} {pos : Nat}
    (hv : ValidStream ts) (hpos : pos ≤ ts.length - 1)
    (hne : (curTok ts pos).type ≠ .eof) : pos + 1 ≤ ts.length - 1 := by
  rcases Nat.lt_or_ge pos (ts.length - 1) with hlt | hge
  · omega
  · have he : pos = ts.length - 1 := le_antisymm hpos hge
    rw [he, hv.2.1] at hne
    exact absurd rfl hne

theorem parseFolderTail_ok_le {ts : List Token} {pAttrs : Nat → PR (PyDict AttrValue)}
    {pBody : Nat → PR (List Node)} {pos : Nat} {ns : List Node} {pos' : Nat}
    (hv : ValidStream ts) (hp1 : pos + 1 ≤ ts.length - 1)
    (hA : ∀ q a p, q ≤ ts.length - 1 → pAttrs q = .ok a p → p ≤ ts.length - 1)
    (hB : ∀ q a p, q ≤ ts.length - 1 → pBody q = .ok a p → p ≤ ts.length - 1)
    (h : parseFolderTail ts pAttrs pBody pos = .ok ns pos') :
    pos' ≤ ts.length - 1 := by
  simp only [parseFolderTail] at h
  split at h
  case isTrue hname =>
    have hp2 : pos + 2 ≤ ts.length - 1 := by
      refine advance_le_of_ne_eof hv hp1 ?_
      simp only [Bool.or_eq_true, decide_eq_true_eq] at hname
      rcases hname with hh | hh
      · rw [hh]; simp
      · rw [hh]; simp
    obtain ⟨attrs, p3, ha, h2⟩ := PR.bind_ok h
    obtain ⟨u4, p4, h3, h4⟩ := PR.bind_ok h2
    obtain ⟨children, p5, h5, h6⟩ := PR.bind_ok h4
    obtain ⟨u6, p6, h7, h8⟩ := PR.bind_ok h6
    cases h8
    have hp3 : p3 ≤ ts.length - 1 := by
      split at ha
      · exact hA _ _ _ hp2 ha
      · cases ha
        exact hp2
    have hp4 : p4 ≤ ts.length - 1 := eatT_ok_le hv hp3 h3 (by simp)
    have hp5 : p5 ≤ ts.length - 1 := hB _ _ _ hp4 h5
    exact eatT_ok_le hv hp5 h7 (by simp)
  case isFalse => exact PR.noConfusion h

theorem parseFileTail_ok_le {ts : List Token} {pAttrs : Nat → PR (PyDict AttrValue)}
    {pos : Nat} {ns : List Node} {pos' : Nat}
    (hv : ValidStream ts) (hp1 : pos + 1 ≤ ts.length - 1)
    (hA : ∀ q a p, q ≤ ts.length - 1 → pAttrs q = .ok a p → p ≤ ts.length - 1)
    (h : parseFileTail ts pAttrs pos = .ok ns pos') : pos' ≤ ts.length - 1 := by
  simp only [parseFileTail] at h
  split at h
  case isTrue hname =>
    have hp2 : pos + 2 ≤ ts.length - 1 := by
      refine advance_le_of_ne_eof hv hp1 ?_
      simp only [Bool.or_eq_true, decide_eq_true_eq] at hname
      rcases hname with hh | hh
      · rw [hh]; simp
      · rw [hh]; simp
    obtain ⟨attrs, p3, ha, h2⟩ := PR.bind_ok h
    cases h2
    split at ha
    · exact hA _ _ _ hp2 ha
    · cases ha
      exact hp2
  case isFalse => exact PR.noConfusion h

theorem parseForTail_ok_le {ts : List Token} {pBody : Nat → PR (List Node)}
    {pos : Nat} {ns : List Node} {pos' : Nat}
    (hv : ValidStream ts) (hp1 : pos + 1 ≤ ts.length - 1)
    (hB : ∀ q a p, q ≤ ts.length - 1 → pBody q = .ok a p → p ≤ ts.length - 1)
    (h : parseForTail ts pBody pos = .ok ns pos') : pos' ≤ ts.length - 1 := by
  simp only [parseForTail] at h
  obtain ⟨u1, p2, h1, h2⟩ := PR.bind_ok h
  have hp2 : p2 ≤ ts.length - 1 := eatT_ok_le hv hp1 h1 (by simp)
  split at h2
  case isFalse => exact PR.noConfusion h2
  case isTrue hid2 =>
  have hp3 : p2 + 1 ≤ ts.length - 1 :=
    advance_le_of_ne_eof hv hp2 (by rw [hid2]; simp)
  obtain ⟨u3, p4, h3, h4⟩ := PR.bind_ok h2
  have hp4 : p4 ≤ ts.length - 1 := eatT_ok_le hv hp3 h3 (by simp)
  split at h4
  case isFalse => exact PR.noConfusion h4
  case isTrue hnum4 =>
  split at h4
  case h_1 => exact PR.noConfusion h4
  case h_2 startv hdec =>
  have hp5 : p4 + 1 ≤ ts.length - 1 :=
    advance_le_of_ne_eof hv hp4 (by rw [hnum4]; simp)
  obtain ⟨u5, p6, h5, h6⟩ := PR.bind_ok h4
  have hp6 : p6 ≤ ts.length - 1 := eatT_ok_le hv hp5 h5 (by simp)
  split at h6
  case isFalse => exact PR.noConfusion h6
  case isTrue hc6 =>
  have hp7 : p6 + 1 ≤ ts.length - 1 :=
    advance_le_of_ne_eof hv hp6 (by rw [hc6.1]; simp)
  split at h6
  case isFalse => exact PR.noConfusion h6
  case isTrue hop =>
  have hp8 : p6 + 1 + 1 ≤ ts.length - 1 := by
    rcases Nat.lt_or_ge (p6 + 1) (ts.length - 1) with hlt | hge
    · omega
    · exfalso
      have heq : p6 + 1 = ts.length - 1 := le_antisymm hp7 hge
      rw [heq, hv.2.2] at hop
      exact absurd hop (by decide)
  split at h6
  case isFalse => exact PR.noConfusion h6
  case isTrue hnum8 =>
  split at h6
  case h_1 => exact PR.noConfusion h6
  case h_2 endv hdec8 =>
  have hp9 : p6 + 1 + 1 + 1 ≤ ts.length - 1 := by
    have := advance_le_of_ne_eof hv hp8 (by rw [hnum8]; simp)
    omega
  obtain ⟨u7, p10, h7, h8⟩ := PR.bind_ok h6
  have hp10 : p10 ≤ ts.length - 1 := by
    have hx := eatT_ok_le hv (show p6 + 3 ≤ ts.length - 1 by omega) h7 (by simp)
    exact hx
  split at h8
  case isFalse => exact PR.noConfusion h8
  case isTrue hc10 =>
  have hp11 : p10 + 1 ≤ ts.length - 1 :=
    advance_le_of_ne_eof hv hp10 (by rw [hc10.1]; simp)
  obtain ⟨step, p12, h9, h10⟩ := PR.bind_ok h8
  have hp12 : p12 ≤ ts.length - 1 := by
    split at h9
    case isTrue hincr =>
      cases h9
      have := advance_le_of_ne_eof hv hp11 (by rw [hincr]; simp)
      omega
    case isFalse =>
      split at h9
      case isTrue hdecr =>
        cases h9
        have := advance_le_of_ne_eof hv hp11 (by rw [hdecr]; simp)
        omega
      case isFalse => exact PR.noConfusion h9
  obtain ⟨u8, p13, h11, h12⟩ := PR.bind_ok h10
  have hp13 : p13 ≤ ts.length - 1 := eatT_ok_le hv hp12 h11 (by simp)
  obtain ⟨u9, p14, h13, h14⟩ := PR.bind_ok h12
  have hp14 : p14 ≤ ts.length - 1 := eatT_ok_le hv hp13 h13 (by simp)
  obtain ⟨children, p15, h15, h16⟩ := PR.bind_ok h14
  have hp15 : p15 ≤ ts.length - 1 := hB _ _ _ hp14 h15
  obtain ⟨u10, p16, h17, h18⟩ := PR.bind_ok h16
  cases h18
  exact eatT_ok_le hv hp15 h17 (by simp)

theorem parseOutputTail_ok_le {ts : List Token} {pos : Nat} {ns : List Node}
    {pos' : Nat} (hv : ValidStream ts) (hp1 : pos + 1 ≤ ts.length - 1)
    (h : parseOutputTail ts pos = .ok ns pos') : pos' ≤ ts.length - 1 := by
  simp only [parseOutputTail] at h
  obtain ⟨u1, p2, h1, h2⟩ := PR.bind_ok h
  have hp2 : p2 ≤ ts.length - 1 := eatT_ok_le hv hp1 h1 (by simp)
  split at h2
  case isTrue hstr =>
    cases h2
    exact advance_le_of_ne_eof hv hp2 (by rw [hstr]; simp)
  case isFalse => exact PR.noConfusion h2

theorem parseInputTail_ok_le {ts : List Token} {pos : Nat} {ns : List Node}
    {pos' : Nat} (hv : ValidStream ts) (hp1 : pos + 1 ≤ ts.length - 1)
    (h : parseInputTail ts pos = .ok ns pos') : pos' ≤ ts.length - 1 := by
  simp only [parseInputTail] at h
  obtain ⟨u1, p2, h1, h2⟩ := PR.bind_ok h
  have hp2 : p2 ≤ ts.length - 1 := eatT_ok_le hv hp1 h1 (by simp)
  split at h2
  case isTrue hident =>
    cases h2
    exact advance_le_of_ne_eof hv hp2 (by rw [hident]; simp)
  case isFalse => exact PR.noConfusion h2

theorem parseS_ok_le {ts : List Token} (hv : ValidStream ts) :
    ∀ (fuel : Nat) (job : SJob) (pos : Nat) (ns : List Node) (pos' : Nat),
    pos ≤ ts.length - 1 → parseS ts fuel job pos = .ok ns pos' →
    pos' ≤ ts.length - 1 := by
  intro fuel
  induction fuel with
  | zero => intro job pos ns pos' _ h; exact PR.noConfusion h
  | succ fuel ih =>
    intro job pos ns pos' hpos h
    cases job with
    | many stopAtBrace =>
      simp only [parseS] at h
      split at h
      · cases h
        exact hpos
      · obtain ⟨a1, p1, h1, h2⟩ := PR.bind_ok h
        obtain ⟨a2, p2, h3, h4⟩ := PR.bind_ok h2
        cases h4
        exact ih _ _ _ _ (ih _ _ _ _ hpos h1) h3
    | one =>
      simp only [parseS] at h
      have hattrs : ∀ q a p, q ≤ ts.length - 1 →
          parseAttributes ts fuel q = .ok a p → p ≤ ts.length - 1 :=
        fun q a p hq hh => parseAttributes_ok_le hv hq hh
      have hbody : ∀ q a p, q ≤ ts.length - 1 →
          parseS ts fuel (.many true) q = .ok a p → p ≤ ts.length - 1 :=
        fun q a p hq hh => ih _ _ _ _ hq hh
      split at h
      case isTrue hfold =>
        exact parseFolderTail_ok_le hv
          (advance_le_of_ne_eof hv hpos (by rw [hfold]; simp)) hattrs hbody h
      case isFalse =>
      split at h
      case isTrue hfile =>
        exact parseFileTail_ok_le hv
          (advance_le_of_ne_eof hv hpos (by rw [hfile]; simp)) hattrs h
      case isFalse =>
      split at h
      case isTrue hfor =>
        exact parseForTail_ok_le hv
          (advance_le_of_ne_eof hv hpos (by rw [hfor]; simp)) hbody h
      case isFalse =>
      split at h
      case isTrue hstdout =>
        exact parseOutputTail_ok_le hv
          (advance_le_of_ne_eof hv hpos (by rw [hstdout]; simp)) h
      case isFalse =>
      split at h
      case isTrue hstdin =>
        exact parseInputTail_ok_le hv
          (advance_le_of_ne_eof hv hpos (by rw [hstdin]; simp)) h
      case isFalse => exact PR.noConfusion h

/-- C8: `parse` on the token stream of empty input — the single
end-of-input token `tokenize` always appends — returns the empty node
sequence without consuming anything (first conjunct, for every non-zero
fuel); and on every valid (end-of-input-terminated) token stream, a
completed parse ends with its position at or before the end-of-input
token: the parser never consumes past it (second conjunct; error exits
abort with no partial result by construction of `PR`). -/
theorem C8_parse_empty_and_bounded :
    (∀ fuel : Nat, parseProgram [⟨.eof, "", 1, 0⟩] (fuel + 1) = .ok [] 0) ∧
    (∀ (ts : List Token) (fuel : Nat) (ns : List Node) (pos' : Nat),
      ValidStream ts → parseProgram ts fuel = .ok ns pos' →
      pos' ≤ ts.length - 1) := by
  constructor
  · intro fuel
    rfl
  · intro ts fuel ns pos' hv h
    unfold parseProgram at h
    rw [if_neg hv.1] at h
    exact parseS_ok_le hv fuel _ 0 ns pos' (Nat.zero_le _) h

def c8Stream : List Token :=
  [⟨.stdoutKw, "stdout", 1, 1⟩, ⟨.lshift, "<<", 1, 8⟩,
   ⟨.stringLit, "hi", 1, 11⟩, ⟨.eof, "", 1, 0⟩]

/-- C8 witness: a concrete valid stream (`stdout << "hi"`) parses to one
node with the final position on the end-of-input token. -/
theorem C8_parse_empty_and_bounded_witness :
    parseProgram c8Stream 3 = .ok [.output "hi"] 3 ∧ 3 ≤ c8Stream.length - 1 := by
  have h : parseProgram c8Stream 3 = .ok [.output "hi"] 3 := rfl
  exact ⟨h, C8_parse_empty_and_bounded.2 c8Stream 3 [.output "hi"] 3 (by decide) h⟩

/-- A for-loop header whose condition-position identifier differs from the
initializer's variable: `for [v=0; w...`, with the offending token at
line 3, column 42. -/
def c9CondMismatch (v w : String) : List Token :=
  [⟨.forKw, "for", 1, 1⟩, ⟨.lbracket, "[", 1, 5⟩, ⟨.identifier, v, 1, 6⟩,
   ⟨.assign, "=", 1, 8⟩, ⟨.number, "0", 1, 10⟩, ⟨.semicolon, ";", 1, 11⟩,
   ⟨.identifier, w, 3, 42⟩]

/-- A for-loop header whose step-position identifier differs:
`for [v=0; v<5; w...`, offending token at line 5, column 9. -/
def c9StepMismatch (v w : String) : List Token :=
  [⟨.forKw, "for", 1, 1⟩, ⟨.lbracket, "[", 1, 5⟩, ⟨.identifier, v, 1, 6⟩,
   ⟨.assign, "=", 1, 8⟩, ⟨.number, "0", 1, 10⟩, ⟨.semicolon, ";", 1, 11⟩,
   ⟨.identifier, v, 1, 13⟩, ⟨.lt, "<", 1, 14⟩, ⟨.number, "5", 1, 15⟩,
   ⟨.semicolon, ";", 1, 16⟩, ⟨.identifier, w, 5, 9⟩]

/-- A for-loop header with an arbitrary non-accepted comparison token at
line 2, column 7: `for [i=0; i ...`. -/
def c9BadOp (tt : TokenType) (opv : String) : List Token :=
  [⟨.forKw, "for", 1, 1⟩, ⟨.lbracket, "[", 1, 5⟩, ⟨.identifier, "i", 1, 6⟩,
   ⟨.assign, "=", 1, 8⟩, ⟨.number, "0", 1, 10⟩, ⟨.semicolon, ";", 1, 11⟩,
   ⟨.identifier, "i", 1, 13⟩, ⟨tt, opv, 2, 7⟩]

/-- A complete well-formed header `for [i=0; i<5; i┄] \x7b \x7d` with the
given step token. -/
def c9Accept (stepTok : Token) : List Token :=
  [⟨.forKw, "for", 1, 1⟩, ⟨.lbracket, "[", 1, 5⟩, ⟨.identifier, "i", 1, 6⟩,
   ⟨.assign, "=", 1, 7⟩, ⟨.number, "0", 1, 8⟩, ⟨.semicolon, ";", 1, 9⟩,
   ⟨.identifier, "i", 1, 11⟩, ⟨.lt, "<", 1, 12⟩, ⟨.number, "5", 1, 13⟩,
   ⟨.semicolon, ";", 1, 14⟩, ⟨.identifier, "i", 1, 16⟩, stepTok,
   ⟨.rbracket, "]", 1, 19⟩, ⟨.lbrace, "", 1, 21⟩, ⟨.rbrace, "", 1, 22⟩]

/-- C9: a for-loop header whose condition-position (first conjunct) or
step-position (second conjunct) variable name differs from the
initializer's, or whose comparison token's text is not one of
`<`, `<=`, `>`, `>=`, `!=` (third conjunct, for every token type), makes
`parse_for_loop` raise a ParseError carrying the offending token's line
and column — and an error outcome carries no nodes, so no partial AST
escapes. Conversely a header with matching names, an accepted operator
and a pure increment (fourth) or decrement (fifth) step is accepted, with
step `+1` respectively `-1` and the operator recorded. -/
theorem C9_forloop_header_validation :
    (∀ v w : String, v ≠ w →
      parseS (c9CondMismatch v w) 1 .one 0 = .perr 3 42) ∧
    (∀ v w : String, v ≠ w →
      parseS (c9StepMismatch v w) 1 .one 0 = .perr 5 9) ∧
    (∀ (tt : TokenType) (opv : String), opv ∉ opList →
      parseS (c9BadOp tt opv) 1 .one 0 = .perr 2 7) ∧
    parseS (c9Accept ⟨.incr, "++", 1, 17⟩) 2 .one 0 =
      .ok [.forLoop "i" 0 5 1 "<" []] 15 ∧
    parseS (c9Accept ⟨.decr, "--", 1, 17⟩) 2 .one 0 =
      .ok [.forLoop "i" 0 5 (-1) "<" []] 15 := by
  refine ⟨?_, ?_, ?_, by rfl, by rfl⟩
  · intro v w h
    have hwv : ¬(w = v) := fun e => h e.symm
    simp [parseS, parseForTail, eatT, curTok, c9CondMismatch, PR.bind, hwv,
      show decodeInt "0" = some 0 by decide]
  · intro v w h
    have hwv : ¬(w = v) := fun e => h e.symm
    simp [parseS, parseForTail, eatT, curTok, c9StepMismatch, PR.bind, hwv,
      show decodeInt "0" = some 0 by decide,
      show decodeInt "5" = some 5 by decide, opList]
  · intro tt opv h
    have hc : opList.contains opv = false := by simpa using h
    simp [parseS, parseForTail, eatT, curTok, c9BadOp, PR.bind, hc,
      show decodeInt "0" = some 0 by decide]
    exact fun hmem => absurd hmem h

/-- C9 witness: the mismatch rule at `i` vs `j` and the operator rule at a
concrete `==` token. -/
theorem C9_forloop_header_validation_witness :
    parseS (c9CondMismatch "i" "j") 1 .one 0 = .perr 3 42 ∧
    parseS (c9BadOp .eq "==") 1 .one 0 = .perr 2 7 :=
  ⟨C9_forloop_header_validation.1 "i" "j" (by decide),
   C9_forloop_header_validation.2.2.1 .eq "==" (by decide)⟩
